import Mathlib

/-!
Shallow embedding of `src/main.py` (mazamas-calscrape) and proofs about it.

The program fetches a CSV calendar, parses it into events (dictionaries),
applies exclusion rules, filters by a user preference file, and prints the
events grouped by activity type.  I/O (HTTP fetch, file reads, printing) is
outside the embedding; every pure computation of the script is modelled below,
translated directly from the source.  Python dictionaries are modelled as
association lists in insertion order, Python sets as duplicate-free lists in
insertion order, and Python prints of diagnostics as accumulated lists.
-/

namespace Calscrape

/-! ### Python string primitives used by the script -/

/-- Model of Python `str.startswith`: list-prefix test on the characters. -/
def pyStartsWith (s pre : String) : Bool :=
  pre.data.isPrefixOf s.data

/-- Model of Python `str.strip()`: drop whitespace from both ends. -/
def pyStrip (s : String) : String :=
  String.mk (((s.data.dropWhile Char.isWhitespace).reverse.dropWhile
    Char.isWhitespace).reverse)

/-- Split a character list on a separator character, Python `str.split(c)`. -/
def splitOnChar (c : Char) (l : List Char) : List (List Char) :=
  l.foldr
    (fun x acc =>
      match acc with
      | [] => [[x]]
      | a :: as => if x = c then [] :: a :: as else (x :: a) :: as)
    [[]]

/-- Numeric value of a digit list (assumes all digits), as Python `int` does. -/
def digitsVal (l : List Char) : Nat :=
  l.foldl (fun a c => a * 10 + (c.toNat - 48)) 0

/-- Model of Python `int(s)` restricted to non-empty all-digit strings, which
is the only way the script calls it (inputs are regex-validated digits). -/
def digitsToNat (l : List Char) : Option Nat :=
  if l ≠ [] ∧ l.all Char.isDigit then some (digitsVal l) else none

/-! ### Dates

`datetime.strptime(s, "%Y-%m-%d")` parses an ISO date and validates it against
the real calendar (it raises on `2023-02-30`).  A parsed date is encoded as the
natural number `y*10000 + m*100 + d`; since `m ≤ 12 < 100` and `d ≤ 31 < 100`,
the order on the encoding coincides with chronological (year, month, day)
lexicographic order, which is how `datetime` objects compare. -/

/-- Leap-year test of the Gregorian calendar. -/
def isLeap (y : Nat) : Bool :=
  (y % 4 = 0 && y % 100 ≠ 0) || y % 400 = 0

/-- Number of days of month `m` of year `y` in the real calendar. -/
def daysInMonth (y m : Nat) : Nat :=
  if m = 2 then (if isLeap y then 29 else 28)
  else if m = 4 ∨ m = 6 ∨ m = 9 ∨ m = 11 then 30
  else 31

/-- Shape test: exactly `DDDD-DD-DD` with `D` a digit.  This is also the
single-date regular expression of `read_not_interested`. -/
def isDateChars : List Char → Bool
  | [a, b, c, d, '-', e, f, '-', g, h] => [a, b, c, d, e, f, g, h].all Char.isDigit
  | _ => false

/-- Split an ISO date string into its numeric year, month and day fields. -/
def parseYMD (s : String) : Option (Nat × Nat × Nat) :=
  match splitOnChar '-' s.data with
  | [y, m, d] =>
    match digitsToNat y, digitsToNat m, digitsToNat d with
    | some y, some m, some d => some (y, m, d)
    | _, _, _ => none
  | _ => none

/-- Model of `datetime.strptime(s, "%Y-%m-%d")`: shape check, field split and
real-calendar validation; the result is the `y*10000+m*100+d` encoding.
Returns `none` where Python raises `ValueError`. -/
def parseDate (s : String) : Option Nat :=
  if isDateChars s.data then
    match parseYMD s with
    | some (y, m, d) =>
      if 1 ≤ m ∧ m ≤ 12 ∧ 1 ≤ d ∧ d ≤ daysInMonth y m then
        some (y * 10000 + m * 100 + d)
      else none
    | none => none
  else none

/-- Model of `is_past` (main.py lines 76-85).  The global `TODAY` (the current
timestamp truncated to midnight, so a pure calendar day) is passed explicitly
as `today` in the same encoding.  Empty strings return `False`; otherwise the
result of `TODAY > strptime(date_str)`, `none` when `strptime` raises. -/
def is_past (today : Nat) (date_str : String) : Option Bool :=
  if date_str = "" then some false
  else (parseDate date_str).map (fun d => decide (d < today))

/-! ### Number-of-openings parsing

Python `float(s)` on the strings this data carries: an optional sign, digits,
an optional decimal point and digits.  (Exponents, `inf`/`nan` and surrounding
whitespace, which `float` would also accept, never occur in the CSV field and
are outside the model.)  The value is an exact rational. -/

/-- Unsigned decimal literal: `"5"`, `"0.5"`, `"5."`, `".5"`.  At least one
digit must be present overall, like `float`. -/
def parseFloatCore (cs : List Char) : Option ℚ :=
  match splitOnChar '.' cs with
  | [ip] => (digitsToNat ip).map (fun n => (n : ℚ))
  | [ip, fp] =>
    if (ip ≠ [] ∨ fp ≠ []) ∧ ip.all Char.isDigit ∧ fp.all Char.isDigit then
      some (mkRat (digitsVal ip * 10 ^ fp.length + digitsVal fp) (10 ^ fp.length))
    else none
  | _ => none

/-- Model of Python `float(s)` on plain decimal literals with optional sign. -/
def parseFloat (s : String) : Option ℚ :=
  match s.data with
  | '-' :: rest => (parseFloatCore rest).map (fun q => -q)
  | '+' :: rest => parseFloatCore rest
  | cs => parseFloatCore cs

/-- Model of `is_full` (main.py lines 88-93), taking the
`Number of openings` field directly: empty means full, otherwise the parsed
number compared with 0; `none` where `float` raises. -/
def is_full (number_of_openings_str : String) : Option Bool :=
  if number_of_openings_str = "" then some true
  else (parseFloat number_of_openings_str).map (fun q => decide (q ≤ 0))

/-! ### Events

A CSV row becomes a Python dictionary keyed by the header names (with the
columns of `IGNORE_FIELDS` dropped).  The fields the script ever reads are
modelled as a record; the dropped and never-inspected columns play no role in
any computation below. -/

/-- One parsed CSV row, holding the columns the script reads
(main.py lines 26-35). -/
structure Event where
  activityType : String
  activityName : String
  startDate : String
  leader : String
  pace : String
  grade : String
  regOpenDate : String
  regCloseDate : String
  numberOfOpenings : String
deriving DecidableEq, Repr

/-- The fixed set `IGNORE_ACTIVITY_TYPES` (main.py line 16). -/
def IGNORE_ACTIVITY_TYPES : List String :=
  ["Field Session", "Lecture", "Meeting", "Hike Route", "Ski Mountaineering Route"]

/-- The fixed display priority list `ACTIVITY_TYPE_ORDER` (main.py line 18). -/
def ACTIVITY_TYPE_ORDER : List String :=
  ["Course", "Hike Route", "Snowshoe", "Climb Route"]

/-- The duplicate-detection key of `read_csv` (main.py line 127):
`activityType + ":" + startDate + ":" + leader`. -/
def evKey (e : Event) : String :=
  e.activityType ++ ":" ++ e.startDate ++ ":" ++ e.leader

/-- Accumulated state of the `read_csv` row loop: the `event_map` dictionary
(key to first activity name), the `ALERT` diagnostics printed so far (key,
name stored in the map, name of the current row), and the surviving events. -/
structure CsvState where
  eventMap : List (String × String)
  alerts : List (String × String × String)
  events : List Event
deriving DecidableEq, Repr

/-- Model of one iteration of the row loop of `read_csv`
(main.py lines 119-146), on an already header-zipped row.  `none` models a
raised exception (`strptime` or `float` failing), which aborts `read_csv`. -/
def readCsvStep (today : Nat) (st : CsvState) (e : Event) : Option CsvState :=
  -- line 125: skip any activities we don't care about
  if e.activityType ∈ IGNORE_ACTIVITY_TYPES then some st
  else
    -- lines 127-133: duplicate-schedule detection
    let key := evKey e
    let st1 :=
      match st.eventMap.lookup key with
      | some prev => { st with alerts := st.alerts ++ [(key, prev, e.activityName)] }
      | none => { st with eventMap := st.eventMap ++ [(key, e.activityName)] }
    -- lines 134-136: don't show events which are already closed
    match is_past today e.regCloseDate with
    | none => none
    | some true => some st1
    | some false =>
      -- lines 140-142: don't bother showing events which are already filled up
      match is_full e.numberOfOpenings with
      | none => none
      | some true => some st1
      | some false =>
        -- lines 143-145: don't show BCEP events
        if pyStartsWith e.activityName "BCEP" then some st1
        else some { st1 with events := st1.events ++ [e] }

/-- Model of `read_csv` (main.py lines 96-147) on the list of header-zipped
rows, with the fetch itself outside the model. -/
def read_csv (today : Nat) (rows : List Event) : Option CsvState :=
  rows.foldlM (readCsvStep today) ⟨[], [], []⟩

/-- What a single row contributes to the `events` output when processed on its
own, ignoring the duplicate diagnostic: `[e]` if it survives the closed, full
and BCEP rules, `[]` if one of them drops it, `none` if parsing raises. -/
def keepEvent (today : Nat) (e : Event) : Option (List Event) :=
  if e.activityType ∈ IGNORE_ACTIVITY_TYPES then some []
  else
    match is_past today e.regCloseDate with
    | none => none
    | some true => some []
    | some false =>
      match is_full e.numberOfOpenings with
      | none => none
      | some true => some []
      | some false =>
        if pyStartsWith e.activityName "BCEP" then some [] else some [e]

/-! ### The event filter -/

/-- Model of `filter_events` (main.py lines 288-306).  `not_interested` is the
dictionary from activity type to the list of dismissal keys, `bad_dates` the
blackout set. -/
def filter_events (events : List Event) (not_interested : List (String × List String))
    (bad_dates : List String) : List Event :=
  match events with
  | [] => []
  | e :: rest =>
    if e.startDate ∈ bad_dates then
      filter_events rest not_interested bad_dates
    else if (match not_interested.lookup e.activityType with
             | some keys => decide ((e.startDate ++ " : " ++ e.leader) ∈ keys)
             | none => false : Bool) then
      filter_events rest not_interested bad_dates
    else
      e :: filter_events rest not_interested bad_dates

/-- The filtering stage of `main` (main.py lines 318-321): `filter_events`
runs only when the `not_interested` dictionary is non-empty. -/
def mainFilterStage (events : List Event) (not_interested : List (String × List String))
    (bad_dates : List String) : List Event :=
  if 0 < not_interested.length then filter_events events not_interested bad_dates
  else events

/-! ### The preference store -/

/-- Model of Python `set.add` on a set represented as a duplicate-free list in
insertion order. -/
def setAdd (l : List String) (s : String) : List String :=
  if s ∈ l then l else l ++ [s]

/-- Append `v` to the list stored under the first binding of `k` in a
dictionary modelled as an association list (`events[k].append(v)`). -/
def dictAppend {α : Type} (m : List (String × List α)) (k : String) (v : α) :
    List (String × List α) :=
  match m with
  | [] => []
  | (k1, vs) :: rest =>
    if k1 = k then (k1, vs ++ [v]) :: rest else (k1, vs) :: dictAppend rest k v

/-- Model of `if k not in events: events[k] = []` on an association list. -/
def dictInsertIfAbsent {α : Type} (m : List (String × List α)) (k : String) :
    List (String × List α) :=
  if (m.lookup k).isSome then m else m ++ [(k, [])]

/-- Format of the dates built by `add_dates` (main.py line 275): the year
unpadded, month and day zero-padded to two digits. -/
def pad2 (n : Nat) : String :=
  if n < 10 then "0" ++ toString n else toString n

/-- The f-string of main.py line 275. -/
def fmtDate (y m d : Nat) : String :=
  toString y ++ "-" ++ pad2 m ++ "-" ++ pad2 d

/-- Model of the `while True` loop of `add_dates` (main.py lines 274-285),
with explicit fuel: `none` means the loop has not terminated within `fuel`
iterations.  Each iteration adds the current date string, increments the day,
rolls the day over past 31 and the month past 12, and breaks only when the
rolled-over counter satisfies `y1 == y2 and m1 == m2 and d1 > d2`. -/
def addDatesLoop : Nat → Nat → Nat → Nat → Nat → Nat → Nat → List String →
    Option (List String)
  | 0, _, _, _, _, _, _, _ => none
  | fuel + 1, y1, m1, d1, y2, m2, d2, dates =>
    let dates1 := setAdd dates (fmtDate y1 m1 d1)
    let d1a := d1 + 1
    let d1b := if 31 < d1a then 1 else d1a
    let m1a := if 31 < d1a then m1 + 1 else m1
    let m1b := if 12 < m1a then 1 else m1a
    let y1a := if 12 < m1a then y1 + 1 else y1
    if y1a = y2 ∧ m1b = m2 ∧ d2 < d1b then some dates1
    else addDatesLoop fuel y1a m1b d1b y2 m2 d2 dates1

/-- Model of `add_dates` (main.py lines 268-285): split both dates into
integers and run the loop.  `none` on malformed input (where `int` would
raise) or when the loop does not terminate within `fuel` iterations. -/
def add_dates (start_date end_date : String) (dates : List String) (fuel : Nat) :
    Option (List String) :=
  match parseYMD start_date, parseYMD end_date with
  | some (y1, m1, d1), some (y2, m2, d2) => addDatesLoop fuel y1 m1 d1 y2 m2 d2 dates
  | _, _ => none

/-- Model of the `date_range` regular expression of main.py line 223,
`^(\d{4}-\d{2}-\d{2})\s*-\s*(\d{4}-\d{2}-\d{2})$`: both groups are fixed
width, so the first is the first ten characters and the rest must be
whitespace, a hyphen, whitespace, and a ten-character date. -/
def matchDateRange (s : String) : Option (String × String) :=
  let cs := s.data
  let a := cs.take 10
  match (cs.drop 10).dropWhile Char.isWhitespace with
  | '-' :: rest =>
    let b := rest.dropWhile Char.isWhitespace
    if isDateChars a ∧ isDateChars b then some (String.mk a, String.mk b)
    else none
  | _ => none

/-- Accumulated state of the line loop of `read_not_interested`: the `events`
dictionary, the `dates` set, and the current `activity_type` heading. -/
structure NIState where
  events : List (String × List String)
  dates : List String
  activityType : Option String
deriving DecidableEq, Repr

/-- Model of one iteration of the line loop of `read_not_interested`
(main.py lines 230-263).  Note the source has no `continue` after the
date-range branch, so a date-range line falls through to the heading
assignment of lines 261-263; the single-date branch does `continue`. -/
def niStep (fuel : Nat) (st : NIState) (rawLine : String) : Option NIState :=
  let is_event := pyStartsWith rawLine " "
  let line := pyStrip rawLine
  if line = "" then some st
  else if pyStartsWith line "#" then some st
  else if is_event then
    match st.activityType with
    | none => some st
    | some t => some { st with events := dictAppend st.events t line }
  else if isDateChars line.data then
    some { st with dates := setAdd st.dates line }
  else
    match matchDateRange line with
    | some (sd, ed) =>
      match add_dates sd ed st.dates fuel with
      | none => none
      | some ds =>
        some { events := dictInsertIfAbsent st.events line, dates := ds,
               activityType := some line }
    | none =>
      some { events := dictInsertIfAbsent st.events line, dates := st.dates,
             activityType := some line }

/-- Model of `read_not_interested` (main.py lines 211-265) on the list of
lines of the preference file; returns the `(events, dates)` pair.  `fuel`
bounds the `add_dates` loops; `none` means some range expansion failed to
terminate within the fuel. -/
def read_not_interested (lines : List String) (fuel : Nat) :
    Option (List (String × List String) × List String) :=
  (lines.foldlM (niStep fuel) ⟨[], [], none⟩).map (fun st => (st.events, st.dates))

/-! ### The presenter -/

/-- One iteration of the grouping loop of `print_events_by_type` (main.py
lines 168-172): append the event to its type's group, or start a new group. -/
def groupStep (m : List (String × List Event)) (e : Event) :
    List (String × List Event) :=
  if (m.lookup e.activityType).isSome then dictAppend m e.activityType e
  else m ++ [(e.activityType, [e])]

/-- The grouping loop of `print_events_by_type` (main.py lines 167-172):
a dictionary from activity type to the list of its events, keys in
first-encounter order, each group in input order. -/
def groupByType (events : List Event) : List (String × List Event) :=
  events.foldl groupStep []

/-- Strict lexicographic order on character lists, Python string `<`. -/
def lexLt : List Char → List Char → Bool
  | [], [] => false
  | [], _ :: _ => true
  | _ :: _, [] => false
  | a :: as, b :: bs => if a < b then true else if a = b then lexLt as bs else false

/-- Lexicographic order on character lists, Python string `<=`. -/
def lexLe : List Char → List Char → Bool
  | [], _ => true
  | _ :: _, [] => false
  | a :: as, b :: bs => if a < b then true else if a = b then lexLe as bs else false

/-- The sort key of main.py line 196, the f-string
`regOpenDate ++ " " ++ startDate`, compared as Python compares strings. -/
def keyLe (a b : Event) : Bool :=
  lexLe (a.regOpenDate ++ " " ++ a.startDate).data (b.regOpenDate ++ " " ++ b.startDate).data

/-- Model of the list-reordering part of `print_events` (main.py lines
193-196): with `by_open` the events are sorted by the key of line 196 with a
stable sort (Python `list.sort`), otherwise left in input order.  The actual
line printing is presentation-only and outside the model. -/
def print_events (events : List Event) (by_open : Bool) : List Event :=
  if by_open then List.insertionSort (fun a b => keyLe a b = true) events else events

/-- Model of `print_events_by_type` (main.py lines 164-190) as the sequence of
(activity type, group) pairs in the order the script prints them: the
priority types that are present (these make up `seen`), then the remaining
dictionary keys. -/
def print_events_by_type (events : List Event) (by_open : Bool) :
    List (String × List Event) :=
  let groups := groupByType events
  let keys := groups.map Prod.fst
  let seen := ACTIVITY_TYPE_ORDER.filter (fun t => decide (t ∈ keys))
  let order := seen ++ keys.filter (fun t => decide (t ∉ seen))
  order.map (fun t => (t, print_events ((groups.lookup t).getD []) by_open))

/-! ### Definitions written from the specification, for comparison -/

/-- Spec-side: the elements of `l` in first-encounter order. -/
def firstOccurAux (seen : List String) : List String → List String
  | [] => []
  | t :: ts =>
    if t ∈ seen then firstOccurAux seen ts
    else t :: firstOccurAux (seen ++ [t]) ts

/-- Spec-side: duplicate-free first-encounter order of a list. -/
def firstOccur (l : List String) : List String :=
  firstOccurAux [] l

/-- Spec-side group order, following the specification's words: every
activity type of the fixed priority list that has at least one event, in the
priority list's order, then the remaining types in first-encountered order. -/
def specGroupOrder (events : List Event) : List String :=
  let enc := firstOccur (events.map Event.activityType)
  ACTIVITY_TYPE_ORDER.filter (fun t => decide (t ∈ enc)) ++
    enc.filter (fun t => decide (t ∉ ACTIVITY_TYPE_ORDER))

/-- Spec-side composite-key comparison, following the specification's words:
the pair `(regOpenDate or empty, startDate)` compared lexicographically, each
component as a string. -/
def pairLe (a b : Event) : Bool :=
  lexLt a.regOpenDate.data b.regOpenDate.data ||
    (a.regOpenDate == b.regOpenDate && lexLe a.startDate.data b.startDate.data)

/-- Spec-side drop condition of the Event Filter, following the
specification's words: the start date is a blackout date, or the dismissed
dictionary has an entry for the activity type whose set contains
`"<startDate> : <leader>"`. -/
def specDrops (not_interested : List (String × List String)) (bad_dates : List String)
    (e : Event) : Prop :=
  e.startDate ∈ bad_dates ∨
    ∃ keys, not_interested.lookup e.activityType = some keys ∧
      (e.startDate ++ " : " ++ e.leader) ∈ keys

/-- The Boolean drop condition exactly as `filter_events` computes it. -/
def codeDrops (not_interested : List (String × List String)) (bad_dates : List String)
    (e : Event) : Bool :=
  decide (e.startDate ∈ bad_dates) ||
    (match not_interested.lookup e.activityType with
     | some keys => decide ((e.startDate ++ " : " ++ e.leader) ∈ keys)
     | none => false)

/-- The diagnostic-and-map part of one `read_csv` iteration (main.py lines
125-133): the state after the type check and duplicate detection, before the
closed/full/BCEP rules touch `events`. -/
def stepAlertMap (st : CsvState) (e : Event) : CsvState :=
  if e.activityType ∈ IGNORE_ACTIVITY_TYPES then st
  else
    match st.eventMap.lookup (evKey e) with
    | some prev => { st with alerts := st.alerts ++ [(evKey e, prev, e.activityName)] }
    | none => { st with eventMap := st.eventMap ++ [(evKey e, e.activityName)] }

/-! ### Sample rows used in the concrete instantiations below -/

/-- A row that survives every rule; used twice to exhibit the duplicate
diagnostic. -/
def rowDup : Event :=
  ⟨"Course", "Intro", "2024-05-01", "Alice", "", "", "", "", "5"⟩

/-- A row whose registration closed before today and whose openings field is
not even numeric. -/
def rowPast : Event :=
  ⟨"Climb Route", "North Ridge", "2024-07-01", "Bob", "", "", "", "2024-01-01", "n/a"⟩

/-- A row reaching the full-roster rule with half an opening. -/
def rowOpen : Event :=
  ⟨"Climb Route", "South Face", "2024-07-02", "Cam", "", "", "", "", "0.5"⟩

/-- Rows of the grouping example of the specification. -/
def evClimb : Event :=
  ⟨"Climb Route", "c", "2024-07-01", "L1", "", "", "", "", "5"⟩

/-- Second row of the grouping example. -/
def evSnow : Event :=
  ⟨"Snowshoe", "s", "2024-07-02", "L2", "", "", "", "", "5"⟩

/-- Third row of the grouping example. -/
def evCourse : Event :=
  ⟨"Course", "k", "2024-07-03", "L3", "", "", "", "", "5"⟩

/-- A row with a recorded registration-open date, for the sorting example. -/
def evLater : Event :=
  ⟨"Course", "later", "2024-07-04", "L4", "", "", "2024-06-01", "", "5"⟩

/-- A row with no registration-open date, for the sorting example. -/
def evNoOpen : Event :=
  ⟨"Course", "noopen", "2024-07-05", "L5", "", "", "", "", "5"⟩

/-! ### Non-termination of the range expansion -/

/-- The `add_dates` loop never breaks when the end day is 31: the day counter
is rolled over to 1 before the `d1 > d2` check, so the counter at the check is
always at most 31 and `d1 > 31` is unreachable. -/
theorem addDatesLoop_end_day31 : ∀ (fuel y m d y2 m2 : Nat) (ds : List String),
    addDatesLoop fuel y m d y2 m2 31 ds = none := by
  intro fuel
  induction fuel with
  | zero => intro y m d y2 m2 ds; rfl
  | succ n ih =>
    intro y m d y2 m2 ds
    simp only [addDatesLoop]
    rw [if_neg]
    · exact ih _ _ _ _ _ _
    · rintro ⟨-, -, h3⟩
      revert h3
      split <;> omega

/-- The `add_dates` loop never breaks when the end year is below the start
year: the year counter only grows, so `y1 == y2` is unreachable. -/
theorem addDatesLoop_end_year_lt :
    ∀ (fuel y m d y2 m2 d2 : Nat) (ds : List String),
      y2 < y → addDatesLoop fuel y m d y2 m2 d2 ds = none := by
  intro fuel
  induction fuel with
  | zero => intros; rfl
  | succ n ih =>
    intro y m d y2 m2 d2 ds hy
    simp only [addDatesLoop]
    rw [if_neg]
    · apply ih
      split <;> (try split) <;> omega
    · rintro ⟨h1, -, -⟩
      revert h1
      split <;> (try split) <;> omega

/-! ### The claims -/

/-- C1: the claim says every start-before-end ISO date range expands to
exactly the real calendar days of the closed interval, with no invalid date
strings.  The code's naive 31-day increment violates this: the range
2023-02-27 - 2023-03-01 produces the strings 2023-02-29, 2023-02-30 and
2023-02-31, which are not calendar days of February 2023 (`parseDate`, the
model of the script's own strptime-based date validation, rejects
2023-02-30).  The claim's own January example does come out right, because
January has 31 days. -/
theorem c1_add_dates_invalid_dates :
    add_dates "2023-02-27" "2023-03-01" [] 100 =
      some ["2023-02-27", "2023-02-28", "2023-02-29", "2023-02-30",
            "2023-02-31", "2023-03-01"] ∧
    parseDate "2023-02-30" = none ∧
    add_dates "2024-01-30" "2024-02-02" [] 100 =
      some ["2024-01-30", "2024-01-31", "2024-02-01", "2024-02-02"] :=
  ⟨by decide, by decide, by decide⟩

/-- C3: when the preference file yields an empty dismissed dictionary, `main`
skips the filtering stage entirely, so the parsed events reach presentation
unchanged even when the blackout-date set is non-empty; a file of only
single blackout-date lines does yield an empty dictionary. -/
theorem c3_empty_dismissed_skips_filtering :
    (∀ (events : List Event) (bad_dates : List String),
      mainFilterStage events [] bad_dates = events) ∧
    read_not_interested ["2024-05-01", "2024-06-02"] 10 =
      some ([], ["2024-05-01", "2024-06-02"]) :=
  ⟨fun _ _ => rfl, by decide⟩

/-- C9: the claim says a non-indented date-range line leaves the dismissed
dictionary and the current heading unchanged.  It does not: the date-range
branch of `read_not_interested` has no `continue`, so the range line itself
becomes the new activity-type heading and a fresh entry keyed by the full
range string is added to the dictionary; the following indented line is
attributed to the range string instead of the preceding genuine heading
`Snowshoe`.  (A single-date line does behave as claimed.) -/
theorem c9_range_line_becomes_heading :
    read_not_interested
      ["Snowshoe", " 2024-03-01 : Alice", "2024-01-30 - 2024-02-02",
       " 2024-04-01 : Bob"] 100 =
    some ([("Snowshoe", ["2024-03-01 : Alice"]),
           ("2024-01-30 - 2024-02-02", ["2024-04-01 : Bob"])],
          ["2024-01-30", "2024-01-31", "2024-02-01", "2024-02-02"]) := by
  decide

/-- C10: the claim says the range expansion terminates for every pair of
well-formed ISO dates, including end-before-start pairs.  It does not: for
the forward, order-preserving range 2024-01-30 - 2024-01-31 the day counter
is rolled over to 1 before the `d1 > d2` break check, so an end day of 31 is
never exceeded, and for the reversed range 2024-01-01 - 2023-06-15 the year
counter can never return to 2023; in both cases no amount of fuel makes the
loop finish. -/
theorem c10_add_dates_diverges (fuel : Nat) (dates : List String) :
    add_dates "2024-01-30" "2024-01-31" dates fuel = none ∧
    add_dates "2024-01-01" "2023-06-15" dates fuel = none := by
  constructor
  · have h : add_dates "2024-01-30" "2024-01-31" dates fuel =
        addDatesLoop fuel 2024 1 30 2024 1 31 dates := rfl
    rw [h]
    exact addDatesLoop_end_day31 fuel 2024 1 30 2024 1 dates
  · have h : add_dates "2024-01-01" "2023-06-15" dates fuel =
        addDatesLoop fuel 2024 1 1 2023 6 15 dates := rfl
    rw [h]
    exact addDatesLoop_end_year_lt fuel 2024 1 1 2023 6 15 dates (by omega)

/-- The `filter_events` loop is `List.filter` with the code's drop
condition negated. -/
theorem filter_events_eq_filter (events : List Event)
    (ni : List (String × List String)) (bd : List String) :
    filter_events events ni bd = events.filter (fun e => !codeDrops ni bd e) := by
  induction events with
  | nil => rfl
  | cons e rest ih =>
    simp only [filter_events, List.filter, codeDrops, ih]
    by_cases h1 : e.startDate ∈ bd
    · simp [h1]
    · cases hl : ni.lookup e.activityType with
      | none => simp [h1, hl]
      | some keys =>
        by_cases h2 : (e.startDate ++ " : " ++ e.leader) ∈ keys
        · simp [h1, hl, h2]
        · simp [h1, hl, h2]

/-- The code's Boolean drop condition agrees with the specification's. -/
theorem codeDrops_iff (ni : List (String × List String)) (bd : List String)
    (e : Event) : codeDrops ni bd e = true ↔ specDrops ni bd e := by
  unfold codeDrops specDrops
  cases hl : ni.lookup e.activityType with
  | none => simp [hl]
  | some keys => simp [hl]

/-- C2: the filter drops exactly the events whose start date is in the
blackout set or whose activity type has a dismissed entry containing
`"<startDate> : <leader>"`; the survivors form a sublist of the input, so
their relative order is the input order.  The embedding is a pure function,
so the inputs are untouched. -/
theorem c2_filter_events_correct (events : List Event)
    (ni : List (String × List String)) (bd : List String) :
    (filter_events events ni bd).Sublist events ∧
    ∀ e, e ∈ filter_events events ni bd ↔ e ∈ events ∧ ¬ specDrops ni bd e := by
  rw [filter_events_eq_filter]
  refine ⟨List.filter_sublist _, fun e => ?_⟩
  have hbool : (!codeDrops ni bd e) = true ↔ ¬ specDrops ni bd e := by
    rw [← codeDrops_iff]
    cases codeDrops ni bd e <;> simp
  rw [List.mem_filter, hbool]

/-- Every branch of the duplicate-detection part leaves `events` alone. -/
theorem stepAlertMap_events (st : CsvState) (e : Event) :
    (stepAlertMap st e).events = st.events := by
  unfold stepAlertMap
  split
  · rfl
  · split <;> rfl

/-- One `read_csv` iteration splits into the diagnostic part and the
contribution of the row to the output list. -/
theorem readCsvStep_decomp (today : Nat) (st : CsvState) (e : Event) :
    readCsvStep today st e = (keepEvent today e).map
      (fun k => { stepAlertMap st e with
                  events := (stepAlertMap st e).events ++ k }) := by
  by_cases hig : e.activityType ∈ IGNORE_ACTIVITY_TYPES
  · simp [readCsvStep, keepEvent, stepAlertMap, hig]
  · cases hp : is_past today e.regCloseDate with
    | none => simp [readCsvStep, keepEvent, stepAlertMap, hig, hp]
    | some bp =>
      cases bp
      · cases hf : is_full e.numberOfOpenings with
        | none => simp [readCsvStep, keepEvent, stepAlertMap, hig, hp, hf]
        | some bf =>
          cases bf
          · by_cases hb : pyStartsWith e.activityName "BCEP" = true
            · simp [readCsvStep, keepEvent, stepAlertMap, hig, hp, hf, hb]
            · simp [readCsvStep, keepEvent, stepAlertMap, hig, hp, hf, hb]
          · simp [readCsvStep, keepEvent, stepAlertMap, hig, hp, hf]
      · simp [readCsvStep, keepEvent, stepAlertMap, hig, hp]

/-- Parsing a two-row batch is the two iterations chained. -/
theorem read_csv_two (today : Nat) (e1 e2 : Event) :
    read_csv today [e1, e2] =
      (readCsvStep today ⟨[], [], []⟩ e1).bind
        (fun s1 => readCsvStep today s1 e2) := by
  simp [read_csv, List.foldlM]

/-- C4 counterexample: the claim says the diagnostic fires exactly when the
two same-key rows have different `activityName`s.  Feeding the very same row
twice (its `activityName` equal to itself) still emits the diagnostic: the
code only tests whether the key was seen, never whether the names differ. -/
theorem c4_alert_despite_equal_names :
    (read_csv 20240101 [rowDup, rowDup]).map CsvState.alerts =
      some [("Course:2024-05-01:Alice", "Intro", "Intro")] := by
  decide

/-- C4 (amended): for two non-type-excluded rows, the diagnostic is emitted
exactly when their duplicate keys coincide, regardless of whether the
activity names differ; it removes nothing — the output is the concatenation
of what each row contributes independently under the remaining rules, and the
detection runs even when a later rule excludes the row. -/
theorem c4_duplicate_alert (today : Nat) (e1 e2 : Event) (st : CsvState)
    (h1 : e1.activityType ∉ IGNORE_ACTIVITY_TYPES)
    (h2 : e2.activityType ∉ IGNORE_ACTIVITY_TYPES)
    (hrun : read_csv today [e1, e2] = some st) :
    st.alerts = (if evKey e1 = evKey e2
                 then [(evKey e2, e1.activityName, e2.activityName)] else []) ∧
    ∃ k1 k2, keepEvent today e1 = some k1 ∧ keepEvent today e2 = some k2 ∧
      st.events = k1 ++ k2 := by
  rw [read_csv_two, readCsvStep_decomp] at hrun
  cases hk1 : keepEvent today e1 with
  | none => rw [hk1] at hrun; simp at hrun
  | some k1 =>
    rw [hk1] at hrun
    simp only [Option.map_some', Option.some_bind] at hrun
    rw [readCsvStep_decomp] at hrun
    cases hk2 : keepEvent today e2 with
    | none => rw [hk2] at hrun; simp at hrun
    | some k2 =>
      rw [hk2] at hrun
      simp only [Option.map_some', Option.some.injEq] at hrun
      subst hrun
      refine ⟨?_, k1, k2, rfl, rfl, ?_⟩
      · by_cases heq : evKey e1 = evKey e2
        · simp [stepAlertMap, h1, h2, List.lookup, ← heq]
        · have : (evKey e2 == evKey e1) = false := by
            simp [beq_eq_false_iff_ne]
            exact fun h => heq h.symm
          simp [stepAlertMap, h1, h2, List.lookup, heq, this]
      · cases hl : List.lookup (evKey e2) [(evKey e1, e1.activityName)] <;>
          simp [stepAlertMap, h1, h2, hl, stepAlertMap_events]

/-- C4 witness: the amended theorem applied to the duplicated sample row. -/
theorem c4_duplicate_alert_witness :
    rowDup.activityType ∉ IGNORE_ACTIVITY_TYPES ∧
    read_csv 20240101 [rowDup, rowDup] =
      some ⟨[("Course:2024-05-01:Alice", "Intro")],
            [("Course:2024-05-01:Alice", "Intro", "Intro")],
            [rowDup, rowDup]⟩ ∧
    (CsvState.alerts
        ⟨[("Course:2024-05-01:Alice", "Intro")],
         [("Course:2024-05-01:Alice", "Intro", "Intro")],
         [rowDup, rowDup]⟩ =
       (if evKey rowDup = evKey rowDup
        then [(evKey rowDup, rowDup.activityName, rowDup.activityName)] else []) ∧
     ∃ k1 k2, keepEvent 20240101 rowDup = some k1 ∧
       keepEvent 20240101 rowDup = some k2 ∧
       CsvState.events
         ⟨[("Course:2024-05-01:Alice", "Intro")],
          [("Course:2024-05-01:Alice", "Intro", "Intro")],
          [rowDup, rowDup]⟩ = k1 ++ k2) :=
  ⟨by decide, by decide,
    c4_duplicate_alert 20240101 rowDup rowDup _ (by decide) (by decide) (by decide)⟩

/-- C5: a row whose registration-close date is a non-empty valid date
strictly before today is excluded no matter what its openings field holds
(the step still succeeds and adds nothing to `events`, even on a
non-numeric openings value), and an empty close date never triggers this
rule. -/
theorem c5_closed_registration (today d : Nat) (st : CsvState) (e : Event)
    (hne : e.regCloseDate ≠ "")
    (hparse : parseDate e.regCloseDate = some d)
    (hlt : d < today) :
    (∃ st1, readCsvStep today st e = some st1 ∧ st1.events = st.events) ∧
    is_past today "" = some false := by
  have hp : is_past today e.regCloseDate = some true := by
    simp [is_past, hne, hparse, hlt]
  have hk : keepEvent today e = some [] := by
    by_cases hig : e.activityType ∈ IGNORE_ACTIVITY_TYPES
    · simp [keepEvent, hig]
    · simp [keepEvent, hig, hp]
  refine ⟨?_, by simp [is_past]⟩
  rw [readCsvStep_decomp, hk]
  exact ⟨_, rfl, by simp [stepAlertMap_events]⟩

/-- C5 witness: the sample row with a 2024-01-01 close date and a
non-numeric openings field, on 2024-06-01. -/
theorem c5_closed_registration_witness :
    rowPast.regCloseDate ≠ "" ∧
    parseDate rowPast.regCloseDate = some 20240101 ∧
    20240101 < 20240601 ∧
    ((∃ st1, readCsvStep 20240601 ⟨[], [], []⟩ rowPast = some st1 ∧
        st1.events = CsvState.events ⟨[], [], []⟩) ∧
      is_past 20240601 "" = some false) :=
  ⟨by decide, by decide, by decide,
    c5_closed_registration 20240601 20240101 ⟨[], [], []⟩ rowPast
      (by decide) (by decide) (by decide)⟩

/-- C6: a row reaching the full-roster rule is excluded exactly when the
openings field is empty or parses to a number at most zero; in particular
the rule sends "" and "0" and "-1" to full and "0.5" to open. -/
theorem c6_full_roster (today : Nat) (st st1 : CsvState) (e : Event)
    (hig : e.activityType ∉ IGNORE_ACTIVITY_TYPES)
    (hreg : is_past today e.regCloseDate = some false)
    (hbcep : pyStartsWith e.activityName "BCEP" = false)
    (hrun : readCsvStep today st e = some st1) :
    (st1.events = st.events ↔
      (e.numberOfOpenings = "" ∨
        ∃ q, parseFloat e.numberOfOpenings = some q ∧ q ≤ 0)) ∧
    is_full "" = some true ∧ is_full "0" = some true ∧
    is_full "-1" = some true ∧ is_full "0.5" = some false := by
  refine ⟨?_, by decide, by decide, by decide, by decide⟩
  rw [readCsvStep_decomp] at hrun
  cases hf : is_full e.numberOfOpenings with
  | none =>
    have hk : keepEvent today e = none := by simp [keepEvent, hig, hreg, hf]
    rw [hk] at hrun
    simp at hrun
  | some bf =>
    cases bf
    · -- not full: the row is appended, and the right side is false
      have hk : keepEvent today e = some [e] := by
        simp [keepEvent, hig, hreg, hf, hbcep]
      rw [hk] at hrun
      simp only [Option.map_some', Option.some.injEq] at hrun
      subst hrun
      simp only [stepAlertMap_events]
      constructor
      · intro habs
        exfalso
        have hlen := congrArg List.length habs
        simp [stepAlertMap_events] at hlen
      · rintro (hemp | ⟨q, hq, hq0⟩)
        · rw [is_full, if_pos hemp] at hf
          exact Option.noConfusion hf (fun h => Bool.noConfusion h)
        · have hne : e.numberOfOpenings ≠ "" := by
            intro h
            rw [h] at hq
            exact Option.noConfusion hq
          rw [is_full, if_neg hne, hq] at hf
          simp at hf
          exact absurd hq0 (by simpa using hf)
    · -- full: nothing is appended, and the right side holds
      have hk : keepEvent today e = some [] := by simp [keepEvent, hig, hreg, hf]
      rw [hk] at hrun
      simp only [Option.map_some', Option.some.injEq] at hrun
      subst hrun
      simp only [stepAlertMap_events]
      constructor
      · intro _
        by_cases hemp : e.numberOfOpenings = ""
        · exact Or.inl hemp
        · right
          rw [is_full, if_neg hemp] at hf
          cases hq : parseFloat e.numberOfOpenings with
          | none => rw [hq] at hf; exact Option.noConfusion hf
          | some q =>
            rw [hq] at hf
            simp at hf
            exact ⟨q, rfl, hf⟩
      · intro _
        simp [stepAlertMap_events]

/-- C6 witness: the half-an-opening sample row is kept, matching the right
side of the characterisation being false. -/
theorem c6_full_roster_witness :
    rowOpen.activityType ∉ IGNORE_ACTIVITY_TYPES ∧
    is_past 20240601 rowOpen.regCloseDate = some false ∧
    pyStartsWith rowOpen.activityName "BCEP" = false ∧
    readCsvStep 20240601 ⟨[], [], []⟩ rowOpen =
      some ⟨[("Climb Route:2024-07-02:Cam", "South Face")], [], [rowOpen]⟩ ∧
    ((CsvState.events
          ⟨[("Climb Route:2024-07-02:Cam", "South Face")], [], [rowOpen]⟩ =
        CsvState.events ⟨[], [], []⟩ ↔
       (rowOpen.numberOfOpenings = "" ∨
         ∃ q, parseFloat rowOpen.numberOfOpenings = some q ∧ q ≤ 0)) ∧
     is_full "" = some true ∧ is_full "0" = some true ∧
     is_full "-1" = some true ∧ is_full "0.5" = some false) :=
  ⟨by decide, by decide, by decide, by decide,
    c6_full_roster 20240601 ⟨[], [], []⟩
      ⟨[("Climb Route:2024-07-02:Cam", "South Face")], [], [rowOpen]⟩ rowOpen
      (by decide) (by decide) (by decide) (by decide)⟩

/-- Appending into an existing group does not change the key sequence. -/
theorem dictAppend_keys {α : Type} (m : List (String × List α)) (k : String)
    (v : α) : (dictAppend m k v).map Prod.fst = m.map Prod.fst := by
  induction m with
  | nil => rfl
  | cons p rest ih =>
    obtain ⟨k1, vs⟩ := p
    simp only [dictAppend]
    split <;> simp [ih]

/-- Dictionary lookup succeeds exactly on the key sequence. -/
theorem lookup_isSome_iff {α : Type} (m : List (String × List α)) (k : String) :
    (m.lookup k).isSome = true ↔ k ∈ m.map Prod.fst := by
  induction m with
  | nil => simp [List.lookup]
  | cons p rest ih =>
    obtain ⟨k1, vs⟩ := p
    by_cases h : k = k1
    · simp [List.lookup, h]
    · have hb : (k == k1) = false := by simp [h]
      simp [List.lookup, hb, ih, h]

/-- Keys of the grouping fold: the accumulator's keys followed by the types
not yet seen, in first-encounter order. -/
theorem groupByType_fold_keys (events : List Event) :
    ∀ acc : List (String × List Event),
      (events.foldl groupStep acc).map Prod.fst =
        acc.map Prod.fst ++
          firstOccurAux (acc.map Prod.fst) (events.map Event.activityType) := by
  induction events with
  | nil => intro acc; simp [firstOccurAux]
  | cons e rest ih =>
    intro acc
    simp only [List.foldl_cons, List.map_cons, firstOccurAux]
    by_cases h : e.activityType ∈ acc.map Prod.fst
    · have hsome : (acc.lookup e.activityType).isSome = true :=
        (lookup_isSome_iff _ _).mpr h
      have hstep : groupStep acc e = dictAppend acc e.activityType e := by
        simp [groupStep, hsome]
      rw [if_pos h, hstep, ih, dictAppend_keys]
    · have hnone : ¬ (acc.lookup e.activityType).isSome = true := fun hc =>
        h ((lookup_isSome_iff _ _).mp hc)
      have hstep : groupStep acc e = acc ++ [(e.activityType, [e])] := by
        simp [groupStep, hnone]
      rw [if_neg h, hstep, ih]
      simp

/-- The grouping dictionary's keys are the activity types in first-encounter
order. -/
theorem groupByType_keys (events : List Event) :
    (groupByType events).map Prod.fst = firstOccur (events.map Event.activityType) := by
  simpa [groupByType, firstOccur] using groupByType_fold_keys events []

/-- C7: the presenter's group order is the priority types that occur, in
priority-list order, followed by the remaining types in first-encounter
order; on the specification's example the order is Course, Snowshoe,
Climb Route with Hike Route omitted. -/
theorem c7_group_order :
    (∀ (events : List Event) (b : Bool),
      (print_events_by_type events b).map Prod.fst = specGroupOrder events) ∧
    (print_events_by_type [evClimb, evSnow, evCourse] false).map Prod.fst =
      ["Course", "Snowshoe", "Climb Route"] := by
  refine ⟨fun events b => ?_, by decide⟩
  unfold print_events_by_type specGroupOrder
  simp only [List.map_map, List.map_append]
  have hid : ∀ l : List String,
      l.map (Prod.fst ∘ fun t => (t, print_events (((groupByType events).lookup t).getD []) b)) = l :=
    fun l => List.map_id l
  rw [hid, hid, groupByType_keys]
  refine congrArg₂ (· ++ ·) rfl (List.filter_congr ?_)
  intro t ht
  by_cases hA : t ∈ ACTIVITY_TYPE_ORDER
  · simp [List.mem_filter, hA, ht, groupByType_keys]
  · simp [List.mem_filter, hA, groupByType_keys]

/-- Nothing is strictly below the empty string. -/
theorem lexLt_nil : ∀ l : List Char, lexLt l [] = false := by
  intro l
  cases l <;> rfl

/-- The string order is total. -/
theorem lexLe_total : ∀ a b : List Char, (lexLe a b || lexLe b a) = true := by
  intro a
  induction a with
  | nil => intro b; simp [lexLe]
  | cons c as ih =>
    intro b
    cases b with
    | nil => simp [lexLe]
    | cons d bs =>
      simp only [lexLe]
      rcases lt_trichotomy c d with h | h | h
      · simp [h]
      · subst h
        simp [lt_irrefl, ih]
      · have h1 : ¬ c < d := not_lt.mpr (le_of_lt h)
        have h2 : c ≠ d := ne_of_gt h
        simp [h, h1, h2]

/-- The string order is transitive. -/
theorem lexLe_trans : ∀ a b c : List Char,
    lexLe a b = true → lexLe b c = true → lexLe a c = true := by
  intro a
  induction a with
  | nil => intro b c _ _; rfl
  | cons x as ih =>
    intro b c hab hbc
    cases b with
    | nil => simp [lexLe] at hab
    | cons y bs =>
      cases c with
      | nil => simp [lexLe] at hbc
      | cons z cs =>
        simp only [lexLe] at hab hbc ⊢
        by_cases h1 : x < y
        · by_cases h2 : y < z
          · simp [lt_trans h1 h2]
          · by_cases h3 : y = z
            · subst h3
              simp [h1]
            · simp [h2, h3] at hbc
        · by_cases h1e : x = y
          · subst h1e
            by_cases h2 : x < z
            · simp [h2]
            · by_cases h3 : x = z
              · subst h3
                simp [lt_irrefl] at hab hbc ⊢
                exact ih _ _ hab hbc
              · simp [h2, h3] at hbc
          · simp [h1, h1e] at hab

/-- Comparing the concatenated keys `r ++ " " ++ s` is comparing the pairs
`(r, s)` lexicographically, as long as neither first component contains a
character at or below the space. -/
theorem lexLe_append_space (r1 s1 : List Char) :
    ∀ r2 s2 : List Char, (∀ c ∈ r1, ' ' < c) → (∀ c ∈ r2, ' ' < c) →
      lexLe (r1 ++ ' ' :: s1) (r2 ++ ' ' :: s2) =
        (lexLt r1 r2 || (decide (r1 = r2) && lexLe s1 s2)) := by
  induction r1 with
  | nil =>
    intro r2 s2 _ h2
    cases r2 with
    | nil => simp [lexLe, lexLt, lt_irrefl]
    | cons d ds =>
      have hd : ' ' < d := h2 d (by simp)
      simp [lexLe, lexLt, hd]
  | cons c cs ih =>
    intro r2 s2 h1 h2
    cases r2 with
    | nil =>
      have hc : ' ' < c := h1 c (by simp)
      have h3 : ¬ c < ' ' := not_lt.mpr (le_of_lt hc)
      have h4 : c ≠ ' ' := ne_of_gt hc
      simp [lexLe, lexLt, h3, h4]
    | cons d ds =>
      simp only [List.cons_append, lexLe, lexLt]
      by_cases hcd : c < d
      · simp [hcd]
      · by_cases hce : c = d
        · subst hce
          have hrec := ih ds s2 (fun x hx => h1 x (by simp [hx]))
            (fun x hx => h2 x (by simp [hx]))
          simp [hcd, hrec, List.cons.injEq]
        · simp [hcd, hce]

/-- Under the same character condition, the code's concatenated sort key
orders events exactly as the specification's composite pair key. -/
theorem keyLe_eq_pairLe (a b : Event)
    (ha : ∀ c ∈ a.regOpenDate.data, ' ' < c)
    (hb : ∀ c ∈ b.regOpenDate.data, ' ' < c) :
    keyLe a b = pairLe a b := by
  unfold keyLe pairLe
  have hdata : ∀ (r s : String), (r ++ " " ++ s).data = r.data ++ ' ' :: s.data := by
    intro r s
    simp [String.data_append]
  rw [hdata, hdata, lexLe_append_space _ _ _ _ ha hb]
  by_cases h : a.regOpenDate = b.regOpenDate
  · simp [h]
  · have hd2 : a.regOpenDate.data ≠ b.regOpenDate.data := by
      intro hc
      exact h (congrArg String.mk hc)
    simp [h, hd2]

/-- C8: with the sort-by-registration-open flag set, the printed group is a
permutation of the input ordered non-decreasingly by the composite key
`(regOpenDate or empty, startDate)`, so events with no recorded open date
come before events with one.  The hypothesis restricts the open-date field to
characters above the space (empty strings and ISO dates satisfy it), which is
what makes the code's concatenated key agree with the composite pair key. -/
theorem c8_sort_by_reg_open (events : List Event)
    (h : ∀ e ∈ events, ∀ c ∈ e.regOpenDate.data, ' ' < c) :
    (print_events events true).Perm events ∧
    (print_events events true).Pairwise (fun a b => pairLe a b = true) ∧
    (print_events events true).Pairwise
      (fun a b => b.regOpenDate = "" → a.regOpenDate = "") := by
  have hperm : (print_events events true).Perm events := by
    simpa [print_events] using
      List.perm_insertionSort (fun a b : Event => keyLe a b = true) events
  haveI : IsTotal Event (fun a b : Event => keyLe a b = true) := ⟨by
    intro a b
    have h0 := lexLe_total (a.regOpenDate ++ " " ++ a.startDate).data
      (b.regOpenDate ++ " " ++ b.startDate).data
    rw [Bool.or_eq_true] at h0
    exact h0⟩
  haveI : IsTrans Event (fun a b : Event => keyLe a b = true) := ⟨by
    intro a b c hab hbc
    exact lexLe_trans _ _ _ hab hbc⟩
  have hpair : (print_events events true).Pairwise (fun a b => pairLe a b = true) := by
    have hs : (print_events events true).Pairwise
        (fun a b : Event => keyLe a b = true) := by
      simpa [print_events] using
        List.sorted_insertionSort (fun a b : Event => keyLe a b = true) events
    refine hs.imp_of_mem ?_
    intro a b hma hmb hk
    rw [← keyLe_eq_pairLe a b (h a (hperm.subset hma)) (h b (hperm.subset hmb))]
    exact hk
  refine ⟨hperm, hpair, hpair.imp ?_⟩
  intro a b hab hbe
  unfold pairLe at hab
  rw [hbe] at hab
  have hnil : ("" : String).data = [] := rfl
  rw [hnil, lexLt_nil] at hab
  simp only [Bool.false_or, Bool.and_eq_true, beq_iff_eq] at hab
  exact hab.1

/-- C8 witness: sorting a two-event group where the second has no open date
puts it first. -/
theorem c8_sort_by_reg_open_witness :
    (∀ e ∈ [evLater, evNoOpen], ∀ c ∈ e.regOpenDate.data, ' ' < c) ∧
    ((print_events [evLater, evNoOpen] true).Perm [evLater, evNoOpen] ∧
      (print_events [evLater, evNoOpen] true).Pairwise
        (fun a b => pairLe a b = true) ∧
      (print_events [evLater, evNoOpen] true).Pairwise
        (fun a b => b.regOpenDate = "" → a.regOpenDate = "")) :=
  ⟨by decide, c8_sort_by_reg_open [evLater, evNoOpen] (by decide)⟩

end Calscrape
